import Mathlib

/-!
Shallow embedding of the AI Bridge broker (`vscode-extension/server/server.js`)
and the producer-side retry logic of the browser content script, together with
theorems settling the specification claims about them.

Strings coming from JavaScript are modelled as `String`; the character-level
operations the code performs (`toLowerCase`, `endsWith`, regex tests,
`includes`) are modelled by structurally recursive functions over `String.data`
so that every definition evaluates by kernel reduction.
Timestamps (ISO-8601 strings compared through `Date`) are modelled as natural
numbers ordered as the instants they denote; `Date.now()` values are modelled
as integers.
-/

namespace AiBridge

/-- ASCII lower-casing of one character, as `String.prototype.toLowerCase`
acts on the hostname characters relevant here. -/
def lowerChar (c : Char) : Char :=
  if 65 ≤ c.toNat ∧ c.toNat ≤ 90 then Char.ofNat (c.toNat + 32) else c

/-- Lower-case a character list. -/
def lowerChars (s : List Char) : List Char :=
  s.map lowerChar

/-- Does `pat` occur as a prefix of `s`? -/
def charsPrefix : List Char → List Char → Bool
  | [], _ => true
  | _ :: _, [] => false
  | a :: as, b :: bs => a = b && charsPrefix as bs

/-- Does `pat` occur as a contiguous substring of `s`
(JavaScript `String.prototype.includes`)? -/
def charsContains (pat : List Char) : List Char → Bool
  | [] => charsPrefix pat []
  | c :: rest => charsPrefix pat (c :: rest) || charsContains pat rest

/-- Does `s` end with `suffixChars` (JavaScript `String.prototype.endsWith`)? -/
def charsEndsWith (s suffixChars : List Char) : Bool :=
  charsPrefix suffixChars.reverse s.reverse

/-- Split a character list on a separator character, keeping empty segments,
as splitting a hostname on the dots. -/
def splitOnChar (sep : Char) : List Char → List (List Char)
  | [] => [[]]
  | c :: rest =>
    match splitOnChar sep rest with
    | [] => [[c]]
    | g :: gs => if c = sep then [] :: g :: gs else (c :: g) :: gs

/-- One to three decimal digits: the `\d` groups of the private-range
regular expressions. -/
def digits1to3 (s : List Char) : Bool :=
  decide (1 ≤ s.length) && decide (s.length ≤ 3) && s.all (fun c => c.isDigit)

/-- The result of `new URL(url)` on the `url` field of a request, reduced to
what the validator inspects: the field may be absent or falsy, the
constructor may throw on a malformed string, or it yields a hostname. -/
inductive UrlVal : Type
  | absent : UrlVal
  | invalid : UrlVal
  | host : String → UrlVal
deriving DecidableEq

/-- A JavaScript value as it can arrive in the `targetClientId` field of a
JSON body: absent, `null`, a number, a string, or a boolean. Numbers are
modelled as integers, the only numeric values the claims concern. -/
inductive JVal : Type
  | undef : JVal
  | jnull : JVal
  | num : Int → JVal
  | str : String → JVal
  | bool : Bool → JVal
deriving DecidableEq

/-- JavaScript truthiness of a `JVal` (`if (targetClientId)`). -/
def JVal.truthy : JVal → Bool
  | .undef => false
  | .jnull => false
  | .num n => n ≠ 0
  | .str s => s ≠ ""
  | .bool b => b

namespace SecurityValidator

/-- Model of `SecurityValidator.validatePrompt` applied to the object the
send handler builds from the `prompt` field:
by the send handler: true when no validation error is thrown. The prompt is
`none` when the field is absent, falsy, or not a string. -/
def validatePrompt (prompt : Option String) : Bool :=
  match prompt with
  | none => false
  | some p => p ≠ "" && decide (p.length ≤ 100000)

/-- Model of `SecurityValidator.validateClientId`: throws unless the value is a number
that is at least 1. True when no error is thrown. -/
def validateClientId : JVal → Bool
  | .num n => decide (1 ≤ n)
  | _ => false

/-- The regular expression `192\.168\.\d,3\.\d,3` anchored on both sides,
applied to a hostname. -/
def matches192 (h : List Char) : Bool :=
  match splitOnChar '.' h with
  | [a, b, c, d] => a = "192".data && b = "168".data && digits1to3 c && digits1to3 d
  | _ => false

/-- The regular expression `10\.\d,3\.\d,3\.\d,3` anchored on both sides. -/
def matches10 (h : List Char) : Bool :=
  match splitOnChar '.' h with
  | [a, b, c, d] => a = "10".data && digits1to3 b && digits1to3 c && digits1to3 d
  | _ => false

/-- The second octets accepted by the group `(1[6-9]|2\d|3[0-1])`. -/
def octets172 : List (List Char) :=
  ["16".data, "17".data, "18".data, "19".data, "20".data, "21".data,
   "22".data, "23".data, "24".data, "25".data, "26".data, "27".data,
   "28".data, "29".data, "30".data, "31".data]

/-- The regular expression `172\.(1[6-9]|2\d|3[0-1])\.\d,3\.\d,3` anchored on
both sides. -/
def matches172 (h : List Char) : Bool :=
  match splitOnChar '.' h with
  | [a, b, c, d] => a = "172".data && decide (b ∈ octets172) && digits1to3 c && digits1to3 d
  | _ => false

/-- The hostnames accepted outright by `isLocalWebpageUrl`. -/
def localhostNames : List (List Char) :=
  ["localhost".data, "127.0.0.1".data, "::1".data, "[::1]".data]

/-- Model of `SecurityValidator.isLocalWebpageUrl`: accepts an absent URL, rejects an
unparseable one, and otherwise lower-cases the hostname and accepts exactly
the localhost names, hostnames ending in `.local`, and hostnames matching one
of the three private-range patterns. -/
def isLocalWebpageUrl : UrlVal → Bool
  | .absent => true
  | .invalid => false
  | .host h0 =>
    let hostname := lowerChars h0.data
    if decide (hostname ∈ localhostNames) then true
    else if charsEndsWith hostname ".local".data then true
    else if matches192 hostname then true
    else if matches10 hostname then true
    else if matches172 hostname then true
    else false

end SecurityValidator

/-- A JSON-like value passed as the `data` argument of a logging call:
a primitive, or an object given as its ordered key/value fields. -/
inductive LogVal : Type
  | str : String → LogVal
  | num : Int → LogVal
  | bool : Bool → LogVal
  | jnull : LogVal
  | undef : LogVal
  | obj : List (String × LogVal) → LogVal

/-- JavaScript truthiness of a `LogVal` (`data ? ... : null`). -/
def LogVal.truthy : LogVal → Bool
  | .str s => s ≠ ""
  | .num n => n ≠ 0
  | .bool b => b
  | .jnull => false
  | .undef => false
  | .obj _ => true

namespace SecurityValidator

/-- The `sensitiveKeys` array of the server's `sanitizeLog`. -/
def sensitiveKeys : List String :=
  ["password", "token", "key", "secret", "api", "credential",
   "auth", "access", "private", "apikey", "bearertoken", "jwt",
   "sessionid", "cookie", "authorization"]

/-- Does the lower-cased key contain one of the sensitive substrings
(`sensitiveKeys.some(s => lowerKey.includes(s))`)? -/
def isSensitiveKey (k : String) : Bool :=
  sensitiveKeys.any (fun s => charsContains s.data (lowerChars k.data))

/-- Model of `SecurityValidator.sanitizeLog`: non-objects (and falsy values) are
returned unchanged; for an object, every top-level field whose key is
sensitive has its value replaced by the string REDACTED marker, and every
other field — nested objects included — is kept as it is. -/
def sanitizeLog : LogVal → LogVal
  | .obj fields =>
    .obj (fields.map (fun kv => if isSensitiveKey kv.1 then (kv.1, .str "[REDACTED]") else kv))
  | v => v

end SecurityValidator

/-- ASCII upper-casing of one character, modelling
`String.prototype.toUpperCase` on log level names. -/
def upperChar (c : Char) : Char :=
  if 97 ≤ c.toNat ∧ c.toNat ≤ 122 then Char.ofNat (c.toNat - 32) else c

/-- Upper-case a string. -/
def upperStr (s : String) : String :=
  String.mk (s.data.map upperChar)

/-- The object printed by `Logger.log`: timestamp, upper-cased level,
component, message, and — only when present and truthy — the sanitized data. -/
structure LogEntry : Type where
  timestamp : Nat
  level : String
  component : String
  message : String
  dataField : Option LogVal

namespace Logger

/-- Model of `Logger.log`: sanitizes a truthy `data` argument through
`SecurityValidator.sanitizeLog` and spreads it into the entry only when the
sanitized value is itself truthy. -/
def log (now : Nat) (level component message : String) (data : LogVal) : LogEntry :=
  let sanitized : LogVal := if data.truthy then SecurityValidator.sanitizeLog data else .jnull
  { timestamp := now
    level := upperStr level
    component := component
    message := message
    dataField := if sanitized.truthy then some sanitized else none }

end Logger

/-- The `requests` map of a `RateLimiter`, in insertion order. -/
abbrev ReqMap : Type := List (String × List Int)

/-- Model of `Map.prototype.has`. -/
def ReqMap.hasKey (m : ReqMap) (k : String) : Bool :=
  m.any (fun e => e.1 = k)

/-- Model of `Map.prototype.get`, with the absent case read as the empty array the
code just stored. -/
def ReqMap.getKey (m : ReqMap) (k : String) : List Int :=
  match m.find? (fun e => e.1 = k) with
  | some e => e.2
  | none => []

/-- Model of `Map.prototype.set`: overwrite in place, or append a fresh key. -/
def ReqMap.setKey : ReqMap → String → List Int → ReqMap
  | [], k, v => [(k, v)]
  | e :: rest, k, v => if e.1 = k then (k, v) :: rest else e :: ReqMap.setKey rest k v

/-- The `RateLimiter` class: ceiling, window length, and per-identifier
recorded timestamps. -/
structure RateLimiter : Type where
  maxRequests : Nat
  windowMs : Nat
  requests : ReqMap

/-- Model of `RateLimiter.isAllowed` at instant `now`: ensure the identifier has an
entry, keep only timestamps strictly newer than `now - windowMs`, reject when
the ceiling is reached, and otherwise record `now` and admit. -/
def RateLimiter.isAllowed (rl : RateLimiter) (identifier : String) (now : Int) :
    Bool × RateLimiter :=
  let windowStart : Int := now - rl.windowMs
  let requests1 : ReqMap :=
    if rl.requests.hasKey identifier then rl.requests else rl.requests.setKey identifier []
  let timestamps := requests1.getKey identifier
  let recentRequests := timestamps.filter (fun t => windowStart < t)
  if rl.maxRequests ≤ recentRequests.length then
    (false, { rl with requests := requests1 })
  else
    (true, { rl with requests := requests1.setKey identifier (recentRequests ++ [now]) })

/-- Run a sequence of `isAllowed` checks for one identifier at the given
instants, collecting the verdicts. -/
def RateLimiter.runChecks (rl : RateLimiter) (identifier : String) :
    List Int → List Bool × RateLimiter
  | [] => ([], rl)
  | t :: ts =>
    let r := rl.isAllowed identifier t
    let rest := RateLimiter.runChecks r.2 identifier ts
    (r.1 :: rest.1, rest.2)

/-- The `clientInfo` record built for every accepted consumer connection. -/
structure ClientInfo : Type where
  id : Nat
  connectedAt : Nat
  lastActive : Nat
  workspace : String
  workspacePath : Option String
  activeFile : Option String
  messageCount : Nat
  bytesSent : Nat
  bytesReceived : Nat
deriving DecidableEq

/-- A registry entry value: the connection handle reduced to whether its
`readyState` is `OPEN`, plus the client info record. -/
structure Client : Type where
  wsOpen : Bool
  info : ClientInfo
deriving DecidableEq

/-- The `vsCodeClients` map: id/client pairs in insertion order, as a
JavaScript `Map` iterates them. -/
abbrev Registry : Type := List (Nat × Client)

/-- The fresh `clientInfo` built when a connection arrives. -/
def freshClientInfo (id now : Nat) : ClientInfo :=
  { id := id
    connectedAt := now
    lastActive := now
    workspace := "Unknown"
    workspacePath := none
    activeFile := none
    messageCount := 0
    bytesSent := 0
    bytesReceived := 0 }

/-- The mutable server state touched by the connection acceptor:
`clientIdCounter` and `vsCodeClients`. -/
structure ServerState : Type where
  counter : Nat
  reg : Registry

/-- The state at startup: `clientIdCounter = 1`, empty registry. -/
def initServerState : ServerState :=
  { counter := 1, reg := [] }

/-- An externally visible event on the acceptor: a connection attempt (with
whether the remote address passes the loopback whitelist) or a close/error of
the connection carrying the given id. -/
inductive ConnEvent : Type
  | connect : Bool → Nat → ConnEvent
  | disconnect : Nat → ConnEvent

/-- One acceptor step. On `connect`, the id counter is consumed and
incremented first; only afterwards is the loopback check made, so a refused
attempt still consumes an id and is never registered. On `disconnect`, the
entry is deleted. Returns the id issued to a successful registration. -/
def stepConn (s : ServerState) : ConnEvent → ServerState × Option Nat
  | .connect isLoopback now =>
    let clientId := s.counter
    let s1 : ServerState := { s with counter := s.counter + 1 }
    if isLoopback then
      ({ s1 with reg := s1.reg ++ [(clientId, { wsOpen := true, info := freshClientInfo clientId now })] },
       some clientId)
    else
      (s1, none)
  | .disconnect id =>
    ({ s with reg := s.reg.filter (fun e => e.1 ≠ id) }, none)

/-- Run a sequence of acceptor events, collecting the ids issued to
successful registrations, in order. -/
def runConn (s : ServerState) : List ConnEvent → ServerState × List Nat
  | [] => (s, [])
  | ev :: evs =>
    let r := stepConn s ev
    let rest := runConn r.1 evs
    (rest.1, (r.2.elim id List.cons) rest.2)

/-- A successfully JSON-parsed inbound frame with a string `type` field. The
`clientInfo` payload carries `message.data` when it is an object, each field
`none` when absent or falsy. -/
inductive ParsedMsg : Type
  | clientInfo : Option (Option String × Option String × Option String) → ParsedMsg
  | heartbeat : ParsedMsg
  | unknown : String → ParsedMsg
deriving DecidableEq

/-- The `ws.on('message')` handler's effect on the one client's info record.
`len` is the raw frame length; `parsed` is `none` when `JSON.parse` throws or
the `type` field is missing or not a string. Bytes received are counted
before any validation; an oversized frame throws after that; the message
counter is incremented after the type dispatch. -/
def handleMessage (info : ClientInfo) (len : Nat) (parsed : Option ParsedMsg) (now : Nat) :
    ClientInfo :=
  let info1 : ClientInfo := { info with bytesReceived := info.bytesReceived + len }
  if 1048576 < len then info1
  else
    match parsed with
    | none => info1
    | some m =>
      let info2 : ClientInfo :=
        match m with
        | .clientInfo (some d) =>
          { info1 with
              workspace := d.1.getD "Unknown"
              workspacePath := d.2.1
              activeFile := d.2.2
              lastActive := now }
        | .clientInfo none => info1
        | .heartbeat => { info1 with lastActive := now }
        | .unknown _ => info1
      { info2 with messageCount := info2.messageCount + 1 }

/-- The same frame, seen at registry level: only the closed-over client's
info record is rewritten, every other entry is untouched. -/
def handleFrame (reg : Registry) (id len : Nat) (parsed : Option ParsedMsg) (now : Nat) :
    Registry :=
  reg.map (fun e =>
    if e.1 = id then (e.1, { e.2 with info := handleMessage e.2.info len parsed now }) else e)

/-- Truthiness of the `url` body field, as tested by `if (url && ...)`. -/
def urlTruthy : UrlVal → Bool
  | .absent => false
  | .invalid => true
  | .host _ => true

/-- The `mostRecentClient` selection loop of the untargeted send branch:
fold over the registry in insertion order, starting from a null client and
`new Date(0)`, replacing the candidate only on a strictly larger
`lastActive`. -/
def mostRecentlyActive (reg : Registry) : Option (Nat × Client) :=
  (reg.foldl
    (fun acc e => if acc.2 < e.2.info.lastActive then (some e, e.2.info.lastActive) else acc)
    ((none : Option (Nat × Client)), 0)).1

/-- The observable outcome of one `POST /api/send` request: one of the
error responses, or the terminal 200 response with its `clientCount` and
`targetClientId` fields. -/
inductive SendOutcome : Type
  | validationError : SendOutcome
  | securityError : SendOutcome
  | vsCodeNotConnected : SendOutcome
  | clientNotFound : SendOutcome
  | invalidClientId : SendOutcome
  | sent : Nat → Option Int → SendOutcome
deriving DecidableEq

/-- The literal `error` field of the failure body each outcome produces,
exactly as the strings appear in the handler's `res.json` calls. -/
def SendOutcome.errorField : SendOutcome → Option String
  | .validationError => some "VALIDATION_ERROR"
  | .securityError => some "SECURITY_ERROR"
  | .vsCodeNotConnected => some "VS_CODE_NOT_CONNECTED"
  | .clientNotFound => some "CLIENT_NOT_FOUND"
  | .invalidClientId => some "INVALID_CLIENT_ID"
  | .sent _ _ => none

/-- The HTTP status each outcome is sent with. -/
def SendOutcome.status : SendOutcome → Nat
  | .validationError => 400
  | .securityError => 403
  | .vsCodeNotConnected => 503
  | .clientNotFound => 404
  | .invalidClientId => 400
  | .sent _ _ => 200

/-- The body fields of a `POST /api/send` request that steer its control
flow: the page url, the prompt, and the optional explicit target. -/
structure SendRequest : Type where
  url : UrlVal
  prompt : Option String
  targetClientId : JVal
deriving DecidableEq

/-- The dispatch effect on the registry of writing the envelope to the
client with the given id: its `bytesSent` grows by the envelope length and
its `lastActive` becomes the current instant; nothing else changes. -/
def dispatchTo (reg : Registry) (id : Nat) (msgLen now : Nat) : Registry :=
  reg.map (fun e =>
    if e.1 = id then
      (e.1, { e.2 with info :=
        { e.2.info with
            bytesSent := e.2.info.bytesSent + msgLen
            lastActive := now } })
    else e)

/-- The `POST /api/send` handler. `now` is the current instant and `msgLen`
the length of the serialized envelope. Control flow, in source order:
prompt validation, webpage-origin check, target-id validation (all before any
registry access), then the empty-registry check, then either the targeted
lookup or the most-recently-active auto-route, each dispatching to at most
one client. -/
def sendHandler (reg : Registry) (now msgLen : Nat) (req : SendRequest) :
    SendOutcome × Registry :=
  if SecurityValidator.validatePrompt req.prompt then
    if urlTruthy req.url && !(SecurityValidator.isLocalWebpageUrl req.url) then
      (.securityError, reg)
    else if req.targetClientId.truthy && !(SecurityValidator.validateClientId req.targetClientId) then
      (.validationError, reg)
    else if reg.length = 0 then
      (.vsCodeNotConnected, reg)
    else if req.targetClientId.truthy then
      match req.targetClientId with
      | .num n =>
        if SecurityValidator.validateClientId (.num n) then
          match reg.find? (fun e => (e.1 : Int) = n) with
          | some e =>
            if e.2.wsOpen then (.sent 1 (some n), dispatchTo reg e.1 msgLen now)
            else (.clientNotFound, reg)
          | none => (.clientNotFound, reg)
        else (.invalidClientId, reg)
      | _ => (.invalidClientId, reg)
    else
      match mostRecentlyActive reg with
      | some e =>
        if e.2.wsOpen then (.sent 1 (some (e.1 : Int)), dispatchTo reg e.1 msgLen now)
        else (.sent 0 none, reg)
      | none => (.sent 0 none, reg)
  else (.validationError, reg)

namespace ContentScript

/-- The loop body of `RetryHandler.execute`, recursing on the number of
attempts still available. `fn` maps an attempt number to its outcome; `jit`
gives the `Math.random() * 500` jitter drawn before the given retry; the
carried error is what `throw lastError` raises once the loop ends. Returns
the result together with the list of waits actually slept, in order. -/
def retryLoop (fn : Nat → Except ε α) (jit : Nat → Nat) (baseDelay : Nat) :
    Nat → Nat → ε → Except ε α × List Nat
  | 0, _, lastError => (.error lastError, [])
  | fuel + 1, attempt, _ =>
    match fn attempt with
    | .ok a => (.ok a, [])
    | .error e =>
      if fuel = 0 then (.error e, [])
      else
        let delay := baseDelay * 2 ^ (attempt - 1)
        let rest := retryLoop fn jit baseDelay fuel (attempt + 1) e
        (rest.1, (delay + jit attempt) :: rest.2)

/-- Model of `RetryHandler.execute`: run the action for attempts `1..maxAttempts`,
sleeping `baseDelay * 2 ^ (attempt - 1)` plus jitter between attempts,
returning the first success or throwing the last error. -/
def RetryHandler.execute (maxAttempts baseDelay : Nat) (fn : Nat → Except ε α)
    (jit : Nat → Nat) (nullError : ε) : Except ε α × List Nat :=
  retryLoop fn jit baseDelay maxAttempts 1 nullError

/-- Model of `Promise.race` of a network call against a rejection timer: the call's
own outcome when it settles strictly before the timer fires, the timeout
rejection otherwise. `latency` and `timeoutMs` are in milliseconds. -/
def raceTimeout (timeoutMs latency : Nat) (res : Except String α) : Except String α :=
  if latency < timeoutMs then res else .error "Request timeout"

/-- One attempt of the prompt-submission (or instance-listing) path: the
fetch with latency `latency k` and outcome `call k`, raced against the
5-second timer, exactly as both `retryHandler.execute` call sites wrap it. -/
def networkAttempt (latency : Nat → Nat) (call : Nat → Except String α) (k : Nat) :
    Except String α :=
  raceTimeout 5000 (latency k) (call k)

end ContentScript

/-- The six error enum values the failure bodies of `POST /api/send` declare,
as the strings appear in the handler. -/
def declaredSendErrors : List String :=
  ["VALIDATION_ERROR", "SECURITY_ERROR", "VS_CODE_NOT_CONNECTED",
   "CLIENT_NOT_FOUND", "INVALID_CLIENT_ID", "INTERNAL_ERROR"]

/-- The rate-limiting middleware step: admit and pass the request on, or
short-circuit with the 429 response body. -/
def rateLimitGate (rl : RateLimiter) (ip : String) (now : Int) :
    Option (Nat × String) × RateLimiter :=
  let r := rl.isAllowed ip now
  if r.1 then (none, r.2) else (some (429, "RATE_LIMIT: Too many requests"), r.2)

/-- The loopback flags of the connection attempts in an acceptor event list,
in order. -/
def connFlags : List ConnEvent → List Bool
  | [] => []
  | .connect b _ :: evs => b :: connFlags evs
  | .disconnect _ :: evs => connFlags evs

/-- The ids a counter starting at `k` hands to a run of connection attempts
with the given loopback flags, keeping those of registered attempts. -/
def idsOfFlags : Nat → List Bool → List Nat
  | _, [] => []
  | k, b :: bs => if b then k :: idsOfFlags (k + 1) bs else idsOfFlags (k + 1) bs

/-- Following the amended C5 wording, for comparison with the source's
`isLocalWebpageUrl`: the webpage origin check accepts exactly the loopback
hostnames, hostnames ending in `.local`, and dotted hostnames fitting the
10.d.d.d, 172.(16-31).d.d, or 192.168.d.d private-range patterns with
1-to-3-digit trailing components. -/
def claimLocalOrigin (h : String) : Bool :=
  let hn := lowerChars h.data
  decide (hn ∈ SecurityValidator.localhostNames) ||
    charsEndsWith hn ".local".data ||
    SecurityValidator.matches10 hn ||
    SecurityValidator.matches172 hn ||
    SecurityValidator.matches192 hn

/-- C1 (counterexample): a valid untargeted submission against an empty
registry yields a failure body whose `error` field is the literal
`VS_CODE_NOT_CONNECTED`, not `NO_CONSUMER_AVAILABLE` as the claim states. -/
theorem c1_error_enum_counterexample :
    (sendHandler [] 5 10 { url := .absent, prompt := some "hello", targetClientId := .undef }).1.errorField
        = some "VS_CODE_NOT_CONNECTED" ∧
    (sendHandler [] 5 10 { url := .absent, prompt := some "hello", targetClientId := .undef }).1.errorField
        ≠ some "NO_CONSUMER_AVAILABLE" := by
  constructor
  · rfl
  · decide

/-- C1 (amended): for every submission with a valid prompt, an acceptable
origin and no (falsy) target, an empty registry yields the unavailable-case
failure whose `error` field is `VS_CODE_NOT_CONNECTED`, one of the six
declared enum values, and the registry stays empty. -/
theorem sendEmptyRegistry_unavailable (now msgLen : Nat) (req : SendRequest)
    (hp : SecurityValidator.validatePrompt req.prompt = true)
    (hu : SecurityValidator.isLocalWebpageUrl req.url = true)
    (ht : req.targetClientId.truthy = false) :
    sendHandler [] now msgLen req = (.vsCodeNotConnected, []) ∧
    (sendHandler [] now msgLen req).1.errorField = some "VS_CODE_NOT_CONNECTED" ∧
    "VS_CODE_NOT_CONNECTED" ∈ declaredSendErrors := by
  have h : sendHandler [] now msgLen req = (.vsCodeNotConnected, []) := by
    simp [sendHandler, hp, hu, ht]
  refine ⟨h, ?_, by decide⟩
  rw [h]
  rfl

/-- Witness for C1's amended theorem at a concrete request. -/
theorem sendEmptyRegistry_unavailable_witness :
    sendHandler [] 5 10 { url := .absent, prompt := some "hello", targetClientId := .undef }
        = (.vsCodeNotConnected, []) ∧
    (sendHandler [] 5 10 { url := .absent, prompt := some "hello", targetClientId := .undef }).1.errorField
        = some "VS_CODE_NOT_CONNECTED" ∧
    "VS_CODE_NOT_CONNECTED" ∈ declaredSendErrors :=
  sendEmptyRegistry_unavailable 5 10
    { url := .absent, prompt := some "hello", targetClientId := .undef }
    (by decide) (by decide) (by decide)

/-- C2 (counterexample): with an empty registry, a submission targeting the
never-issued positive id 5 is answered with `VS_CODE_NOT_CONNECTED` — the
empty-registry check precedes the targeted lookup — not `CLIENT_NOT_FOUND`
as the claim states for that case. -/
theorem c2_empty_registry_counterexample :
    (sendHandler [] 5 10 { url := .absent, prompt := some "hello", targetClientId := .num 5 }).1
        = .vsCodeNotConnected ∧
    (sendHandler [] 5 10 { url := .absent, prompt := some "hello", targetClientId := .num 5 }).1
        ≠ .clientNotFound := by
  constructor
  · rfl
  · decide

/-- C2 (amended): for every submission supplying a positive-integer target
that is not currently registered, a NON-EMPTY registry yields
`CLIENT_NOT_FOUND`, leaving the registry unchanged; this outcome is
distinguishable (distinct `error` field and status) from the
`VS_CODE_NOT_CONNECTED` outcome that every submission — targeted or not —
receives when the registry holds zero clients. -/
theorem sendStaleTarget_clientNotFound (reg : Registry) (now msgLen : Nat)
    (req : SendRequest) (n : Int)
    (hne : reg ≠ [])
    (htgt : req.targetClientId = .num n) (hn : 1 ≤ n)
    (habs : ∀ e ∈ reg, (e.1 : Int) ≠ n)
    (hp : SecurityValidator.validatePrompt req.prompt = true)
    (hu : SecurityValidator.isLocalWebpageUrl req.url = true) :
    sendHandler reg now msgLen req = (.clientNotFound, reg) ∧
    SendOutcome.errorField .clientNotFound ≠ SendOutcome.errorField .vsCodeNotConnected ∧
    SendOutcome.status .clientNotFound ≠ SendOutcome.status .vsCodeNotConnected := by
  have htr : req.targetClientId.truthy = true := by
    rw [htgt]
    simp [JVal.truthy]
    omega
  have hv : SecurityValidator.validateClientId req.targetClientId = true := by
    rw [htgt]
    simp [SecurityValidator.validateClientId, hn]
  have hfind : reg.find? (fun e => decide ((e.1 : Int) = n)) = none := by
    rw [List.find?_eq_none]
    intro e he
    simpa using habs e he
  have hlen : ¬ reg.length = 0 := by
    simpa [List.length_eq_zero] using hne
  refine ⟨?_, by decide, by decide⟩
  rw [sendHandler]
  rw [htgt] at htr hv ⊢
  simp [hp, hu, htr, hv, hlen, hfind]

/-- Witness for C2's amended theorem at a concrete registry and target. -/
theorem sendStaleTarget_clientNotFound_witness :
    sendHandler [(1, { wsOpen := true, info := freshClientInfo 1 3 })] 5 10
        { url := .absent, prompt := some "hello", targetClientId := .num 5 }
        = (.clientNotFound, [(1, { wsOpen := true, info := freshClientInfo 1 3 })]) ∧
    SendOutcome.errorField .clientNotFound ≠ SendOutcome.errorField .vsCodeNotConnected ∧
    SendOutcome.status .clientNotFound ≠ SendOutcome.status .vsCodeNotConnected :=
  sendStaleTarget_clientNotFound
    [(1, { wsOpen := true, info := freshClientInfo 1 3 })] 5 10
    { url := .absent, prompt := some "hello", targetClientId := .num 5 } 5
    (by decide) rfl (by decide) (by decide) (by decide) (by decide)

/-- C9: every falsy `targetClientId` (0, null, empty string, or absent) is
treated as no target: the submission behaves exactly like one with the field
absent, the client-id validator path cannot produce `INVALID_CLIENT_ID` or a
validation failure, an empty registry gives the unavailable response, and a
non-empty registry takes the auto-route branch to a terminal 200 response. -/
theorem sendFalsyTarget_autoRoutes (reg : Registry) (now msgLen : Nat) (req : SendRequest)
    (ht : req.targetClientId.truthy = false)
    (hp : SecurityValidator.validatePrompt req.prompt = true)
    (hu : SecurityValidator.isLocalWebpageUrl req.url = true) :
    sendHandler reg now msgLen req
        = sendHandler reg now msgLen { req with targetClientId := .undef } ∧
    (sendHandler reg now msgLen req).1 ≠ .invalidClientId ∧
    (sendHandler reg now msgLen req).1 ≠ .validationError ∧
    (reg = [] → (sendHandler reg now msgLen req).1 = .vsCodeNotConnected) ∧
    (reg ≠ [] → ∃ cnt tid, (sendHandler reg now msgLen req).1 = .sent cnt tid) := by
  have hund : (JVal.undef).truthy = false := rfl
  have hmain : ∀ reg' : Registry, sendHandler reg' now msgLen req
      = sendHandler reg' now msgLen { req with targetClientId := .undef } := by
    intro reg'
    rw [sendHandler, sendHandler]
    simp only [ht, hund, Bool.false_and, Bool.false_eq_true, if_false]
  have hshape : ∀ reg' : Registry, reg' ≠ [] →
      ∃ cnt tid, (sendHandler reg' now msgLen req).1 = .sent cnt tid := by
    intro reg' hne
    have hlen : ¬ reg'.length = 0 := by
      simpa [List.length_eq_zero] using hne
    rw [sendHandler]
    simp only [hp, if_true, hu, Bool.not_true, Bool.and_false, Bool.false_eq_true, if_false,
      ht, hlen, Bool.false_and]
    match hm : mostRecentlyActive reg' with
    | some e =>
      by_cases hw : e.2.wsOpen
      · exact ⟨1, some (e.1 : Int), by simp [hw]⟩
      · exact ⟨0, none, by simp [hw]⟩
    | none => exact ⟨0, none, by simp⟩
  refine ⟨hmain reg, ?_, ?_, ?_, hshape reg⟩
  · by_cases hne : reg = []
    · subst hne
      have : sendHandler [] now msgLen req = (.vsCodeNotConnected, []) := by
        simp [sendHandler, hp, hu, ht]
      simp [this]
    · obtain ⟨cnt, tid, hout⟩ := hshape reg hne
      simp [hout]
  · by_cases hne : reg = []
    · subst hne
      have : sendHandler [] now msgLen req = (.vsCodeNotConnected, []) := by
        simp [sendHandler, hp, hu, ht]
      simp [this]
    · obtain ⟨cnt, tid, hout⟩ := hshape reg hne
      simp [hout]
  · intro hnil
    subst hnil
    simp [sendHandler, hp, hu, ht]

/-- Witness for C9 at a concrete registry and the falsy target `0`. -/
theorem sendFalsyTarget_autoRoutes_witness :
    (sendHandler [(1, { wsOpen := true, info := freshClientInfo 1 3 })] 5 10
        { url := .absent, prompt := some "hello", targetClientId := .num 0 }
      = sendHandler [(1, { wsOpen := true, info := freshClientInfo 1 3 })] 5 10
        { url := .absent, prompt := some "hello", targetClientId := .undef }) ∧
    (sendHandler [(1, { wsOpen := true, info := freshClientInfo 1 3 })] 5 10
        { url := .absent, prompt := some "hello", targetClientId := .num 0 }).1
      ≠ .invalidClientId := by
  have h := sendFalsyTarget_autoRoutes
    [(1, { wsOpen := true, info := freshClientInfo 1 3 })] 5 10
    { url := .absent, prompt := some "hello", targetClientId := .num 0 }
    (by decide) (by decide) (by decide)
  exact ⟨h.1, h.2.1⟩

/-- C7 (counterexample): processing a heartbeat frame does not leave the
other fields untouched — on a fresh client a 9-byte heartbeat bumps the
message counter from 0 to 1 and the received-bytes counter from 0 to 9,
contradicting the claim that only `lastActive` changes. -/
theorem c7_heartbeat_counterexample :
    (handleMessage (freshClientInfo 1 0) 9 (some .heartbeat) 5).messageCount
        ≠ (freshClientInfo 1 0).messageCount ∧
    (handleMessage (freshClientInfo 1 0) 9 (some .heartbeat) 5).bytesReceived
        ≠ (freshClientInfo 1 0).bytesReceived := by
  decide

/-- C7 (amended): a heartbeat frame of admissible size on an open registered
connection refreshes that client's `lastActive`, and also performs the
per-frame bookkeeping every inbound frame gets — message counter
incremented, received bytes grown by the frame length; the workspace
metadata, sent-bytes counter, identity fields, and every other registry
entry are unchanged. -/
theorem heartbeat_effect (reg : Registry) (id len now : Nat) (info : ClientInfo)
    (hlen : len ≤ 1048576) :
    handleMessage info len (some .heartbeat) now =
      { info with
          lastActive := now
          messageCount := info.messageCount + 1
          bytesReceived := info.bytesReceived + len } ∧
    (∀ j, j ≠ id →
      (handleFrame reg id len (some .heartbeat) now).find? (fun e => e.1 = j)
        = reg.find? (fun e => e.1 = j)) := by
  have hcond : ¬ (1048576 < len) := by omega
  constructor
  · simp [handleMessage, hcond]
  · intro j hj
    rw [handleFrame, List.find?_map]
    have hcomp : ((fun x : Nat × Client => decide (x.1 = j)) ∘ fun e : Nat × Client =>
        if e.1 = id then
          (e.1, { e.2 with info := handleMessage e.2.info len (some .heartbeat) now })
        else e)
        = fun x : Nat × Client => decide (x.1 = j) := by
      funext x
      by_cases hid : x.1 = id
      · simp [hid]
      · simp [hid]
    rw [hcomp]
    cases hfound : List.find? (fun x : Nat × Client => decide (x.1 = j)) reg with
    | none => rfl
    | some e =>
      have hkey : e.1 = j := by
        simpa using List.find?_some hfound
      have hid : ¬ e.1 = id := by
        rw [hkey]
        exact hj
      simp [if_neg hid]

/-- Witness for C7's amended theorem on a two-client registry. -/
theorem heartbeat_effect_witness :
    handleMessage (freshClientInfo 2 3) 9 (some .heartbeat) 7 =
      { freshClientInfo 2 3 with lastActive := 7, messageCount := 1, bytesReceived := 9 } ∧
    (handleFrame
        [(1, { wsOpen := true, info := freshClientInfo 1 3 }),
         (2, { wsOpen := true, info := freshClientInfo 2 3 })] 2 9 (some .heartbeat) 7).find?
        (fun e => e.1 = 1)
      = ([(1, { wsOpen := true, info := freshClientInfo 1 3 }),
          (2, { wsOpen := true, info := freshClientInfo 2 3 })] : Registry).find?
        (fun e => e.1 = 1) := by
  have h := heartbeat_effect
    [(1, { wsOpen := true, info := freshClientInfo 1 3 }),
     (2, { wsOpen := true, info := freshClientInfo 2 3 })] 2 9 7 (freshClientInfo 2 3)
    (by decide)
  exact ⟨h.1, h.2 1 (by decide)⟩

/-- C10: the sanitizer redacts exactly the top-level fields whose lower-cased
key contains a sensitive substring, preserving every other field — nested
objects included — and every non-object input; and `Logger.log` runs its
truthy `data` argument through the sanitizer before the entry is emitted. -/
theorem sanitizeLog_redactsTopLevelSensitiveKeys :
    (∀ fields : List (String × LogVal),
      ∃ fields2, SecurityValidator.sanitizeLog (.obj fields) = .obj fields2 ∧
        List.Forall₂ (fun a b : String × LogVal =>
          b.1 = a.1 ∧
          (SecurityValidator.isSensitiveKey a.1 = true → b.2 = .str "[REDACTED]") ∧
          (SecurityValidator.isSensitiveKey a.1 = false → b.2 = a.2)) fields fields2) ∧
    (∀ s, SecurityValidator.sanitizeLog (.str s) = .str s) ∧
    (∀ n, SecurityValidator.sanitizeLog (.num n) = .num n) ∧
    (∀ b, SecurityValidator.sanitizeLog (.bool b) = .bool b) ∧
    SecurityValidator.sanitizeLog .jnull = .jnull ∧
    SecurityValidator.sanitizeLog .undef = .undef ∧
    (∀ now lvl comp msg d, d.truthy = true →
      (Logger.log now lvl comp msg d).dataField = some (SecurityValidator.sanitizeLog d)) := by
  refine ⟨?_, fun _ => rfl, fun _ => rfl, fun _ => rfl, rfl, rfl, ?_⟩
  · intro fields
    refine ⟨_, rfl, ?_⟩
    induction fields with
    | nil => exact List.Forall₂.nil
    | cons kv rest ih =>
      refine List.Forall₂.cons ?_ ih
      by_cases hs : SecurityValidator.isSensitiveKey kv.1 = true
      · refine ⟨by simp [hs], fun _ => by simp [hs], fun hfalse => ?_⟩
        rw [hs] at hfalse
        exact absurd hfalse (by decide)
      · have hs' : SecurityValidator.isSensitiveKey kv.1 = false := by
          simpa using hs
        exact ⟨by simp [hs'], fun htrue => absurd htrue hs, fun _ => by simp [hs']⟩
  · intro now lvl comp msg d hd
    have hsan : (SecurityValidator.sanitizeLog d).truthy = true := by
      cases d with
      | obj fields => rfl
      | str s => exact hd
      | num n => exact hd
      | bool b => exact hd
      | jnull => exact hd
      | undef => exact hd
    simp [Logger.log, hd, hsan]

/-- Witness for C10: a sensitive top-level key is redacted while a
non-sensitive key holding a nested object with a sensitive inner key is
passed through unchanged. -/
theorem sanitizeLog_redacts_witness :
    ∃ fields2,
      SecurityValidator.sanitizeLog
          (.obj [("apiToken", .str "s3cr3t"), ("meta", .obj [("password", .str "p")])])
        = .obj fields2 ∧
      List.Forall₂ (fun a b : String × LogVal =>
        b.1 = a.1 ∧
        (SecurityValidator.isSensitiveKey a.1 = true → b.2 = .str "[REDACTED]") ∧
        (SecurityValidator.isSensitiveKey a.1 = false → b.2 = a.2))
        [("apiToken", .str "s3cr3t"), ("meta", .obj [("password", .str "p")])] fields2 :=
  sanitizeLog_redactsTopLevelSensitiveKeys.1
    [("apiToken", .str "s3cr3t"), ("meta", .obj [("password", .str "p")])]

/-- C8: the producer-side retry operation, instantiated as the content
script does (`new RetryHandler(3, 1000)`), runs the action for at most 3
attempts and returns the first success (sleeping nothing after a first-try
success); each retry is preceded by a wait of `1000 * 2 ^ (attempt - 1)`
milliseconds — 1 s, then 2 s — plus that attempt's random jitter, which the
code draws below 500 ms; when all three attempts fail the final failure is
rethrown after exactly two waits; and each wrapped network call is raced
against a hard 5-second timer, timing out whenever its latency reaches
5000 ms and passing its own outcome through when it settles earlier. -/
theorem retryHandler_execute_spec {ε α β : Type} (fn : Nat → Except ε α)
    (jit : Nat → Nat) (nullErr : ε) :
    (∀ a, fn 1 = .ok a →
      ContentScript.RetryHandler.execute 3 1000 fn jit nullErr = (.ok a, [])) ∧
    (∀ e1 a, fn 1 = .error e1 → fn 2 = .ok a →
      ContentScript.RetryHandler.execute 3 1000 fn jit nullErr
        = (.ok a, [1000 + jit 1])) ∧
    (∀ e1 e2 a, fn 1 = .error e1 → fn 2 = .error e2 → fn 3 = .ok a →
      ContentScript.RetryHandler.execute 3 1000 fn jit nullErr
        = (.ok a, [1000 + jit 1, 2000 + jit 2])) ∧
    (∀ e1 e2 e3, fn 1 = .error e1 → fn 2 = .error e2 → fn 3 = .error e3 →
      ContentScript.RetryHandler.execute 3 1000 fn jit nullErr
        = (.error e3, [1000 + jit 1, 2000 + jit 2])) ∧
    ((∀ k, jit k < 500) → ∀ i,
      1000 * 2 ^ (i - 1) ≤ 1000 * 2 ^ (i - 1) + jit i ∧
      1000 * 2 ^ (i - 1) + jit i < 1000 * 2 ^ (i - 1) + 500) ∧
    (∀ (latency : Nat → Nat) (call : Nat → Except String β) k, 5000 ≤ latency k →
      ContentScript.networkAttempt latency call k = .error "Request timeout") ∧
    (∀ (latency : Nat → Nat) (call : Nat → Except String β) k, latency k < 5000 →
      ContentScript.networkAttempt latency call k = call k) := by
  refine ⟨?_, ?_, ?_, ?_, ?_, ?_, ?_⟩
  · intro a h1
    simp [ContentScript.RetryHandler.execute, ContentScript.retryLoop, h1]
  · intro e1 a h1 h2
    simp [ContentScript.RetryHandler.execute, ContentScript.retryLoop, h1, h2]
  · intro e1 e2 a h1 h2 h3
    simp [ContentScript.RetryHandler.execute, ContentScript.retryLoop, h1, h2, h3]
  · intro e1 e2 e3 h1 h2 h3
    simp [ContentScript.RetryHandler.execute, ContentScript.retryLoop, h1, h2, h3]
  · intro hj i
    exact ⟨Nat.le_add_right _ _, by have := hj i; omega⟩
  · intro latency call k hlat
    have : ¬ latency k < 5000 := by omega
    simp [ContentScript.networkAttempt, ContentScript.raceTimeout, this]
  · intro latency call k hlat
    simp [ContentScript.networkAttempt, ContentScript.raceTimeout, hlat]

/-- Witness for C8: an action that fails once and succeeds on the second
attempt, with constant 250 ms jitter, returns the second attempt's value
after a single 1250 ms wait; and a 6-second call times out. -/
theorem retryHandler_execute_spec_witness :
    ContentScript.RetryHandler.execute 3 1000
        (fun k => if k = 1 then Except.error "down" else Except.ok 42)
        (fun _ => 250) "null"
      = (Except.ok 42, [1250]) ∧
    ContentScript.networkAttempt (fun _ => 6000)
        (fun _ => (Except.ok 7 : Except String Nat)) 1
      = Except.error "Request timeout" := by
  have h := @retryHandler_execute_spec String Nat Nat
    (fun k => if k = 1 then Except.error "down" else Except.ok (42 : Nat))
    (fun _ => 250) "null"
  refine ⟨?_, h.2.2.2.2.2.1 (fun _ => 6000) (fun _ => Except.ok 7) 1 (by norm_num)⟩
  have hb := h.2.1 "down" 42 (by simp) (by simp)
  simpa using hb

/-- Helper: the source origin check agrees everywhere with the amended
claim's acceptance set. -/
theorem isLocalWebpageUrl_eq_claimLocalOrigin (h : String) :
    SecurityValidator.isLocalWebpageUrl (.host h) = claimLocalOrigin h := by
  unfold SecurityValidator.isLocalWebpageUrl claimLocalOrigin
  by_cases h1 : lowerChars h.data ∈ SecurityValidator.localhostNames <;>
    cases h2 : charsEndsWith (lowerChars h.data) ".local".data <;>
    cases h3 : SecurityValidator.matches192 (lowerChars h.data) <;>
    cases h4 : SecurityValidator.matches10 (lowerChars h.data) <;>
    cases h5 : SecurityValidator.matches172 (lowerChars h.data) <;>
    simp [h1, h2, h3, h4, h5]

/-- Helper: the only way the send handler produces the security failure is
through the webpage-origin check. -/
theorem securityError_only_from_origin (reg : Registry) (now msgLen : Nat)
    (req : SendRequest)
    (hout : (sendHandler reg now msgLen req).1 = .securityError) :
    (urlTruthy req.url && !(SecurityValidator.isLocalWebpageUrl req.url)) = true := by
  by_cases hsec : (urlTruthy req.url && !(SecurityValidator.isLocalWebpageUrl req.url)) = true
  · exact hsec
  · exfalso
    rw [sendHandler] at hout
    by_cases hp : SecurityValidator.validatePrompt req.prompt = true
    · rw [if_pos hp, if_neg hsec] at hout
      by_cases hv : (req.targetClientId.truthy && !SecurityValidator.validateClientId req.targetClientId) = true
      · rw [if_pos hv] at hout
        simp at hout
      · rw [if_neg hv] at hout
        by_cases hz : reg.length = 0
        · rw [if_pos hz] at hout
          simp at hout
        · rw [if_neg hz] at hout
          by_cases htr : req.targetClientId.truthy = true
          · rw [if_pos htr] at hout
            cases htc : req.targetClientId with
            | num n =>
              rw [htc] at hout
              by_cases hvn : SecurityValidator.validateClientId (.num n) = true
              · cases hfind : reg.find? (fun e => decide ((e.1 : Int) = n)) with
                | some e =>
                  by_cases hw : e.2.wsOpen = true
                  · simp [hvn, hfind, hw] at hout
                  · simp [hvn, hfind, hw] at hout
                | none => simp [hvn, hfind] at hout
              · simp [hvn] at hout
            | undef =>
              rw [htc] at hout
              simp at hout
            | jnull =>
              rw [htc] at hout
              simp at hout
            | str s =>
              rw [htc] at hout
              simp at hout
            | bool b =>
              rw [htc] at hout
              simp at hout
          · rw [if_neg htr] at hout
            cases hm : mostRecentlyActive reg with
            | some e =>
              rw [hm] at hout
              by_cases hw : e.2.wsOpen = true
              · simp [hw] at hout
              · simp [hw] at hout
            | none =>
              rw [hm] at hout
              simp at hout
    · rw [if_neg hp] at hout
      simp at hout

/-- C5 (counterexample): a hostname with the development suffix `.test`,
which the claim says is accepted, is rejected by the origin check, and a
valid submission from it is answered with the SecurityError response. -/
theorem c5_test_suffix_counterexample :
    SecurityValidator.isLocalWebpageUrl (.host "myapp.test") = false ∧
    (sendHandler [(1, { wsOpen := true, info := freshClientInfo 1 3 })] 5 10
        { url := .host "myapp.test", prompt := some "hello", targetClientId := .undef })
      = (.securityError, [(1, { wsOpen := true, info := freshClientInfo 1 3 })]) := by
  constructor
  · decide
  · rfl

/-- C5 (amended): the webpage origin check accepts exactly the loopback
hostnames, hostnames ending in `.local`, and the three private-range dotted
patterns; every submission with a valid prompt whose url parses to any other
hostname is rejected with the SecurityError response, with the registry
returned unchanged whatever it holds — before any registry access — and a
submission from an accepted hostname is never answered with it. -/
theorem webpageOrigin_check (reg : Registry) (now msgLen : Nat)
    (req : SendRequest) (h : String)
    (hurl : req.url = .host h)
    (hp : SecurityValidator.validatePrompt req.prompt = true) :
    SecurityValidator.isLocalWebpageUrl (.host h) = claimLocalOrigin h ∧
    (claimLocalOrigin h = false →
      sendHandler reg now msgLen req = (.securityError, reg)) ∧
    (claimLocalOrigin h = true →
      (sendHandler reg now msgLen req).1 ≠ .securityError) := by
  refine ⟨isLocalWebpageUrl_eq_claimLocalOrigin h, ?_, ?_⟩
  · intro hrej
    have hloc : SecurityValidator.isLocalWebpageUrl req.url = false := by
      rw [hurl, isLocalWebpageUrl_eq_claimLocalOrigin]
      exact hrej
    have hcond : (urlTruthy req.url && !(SecurityValidator.isLocalWebpageUrl req.url)) = true := by
      rw [hurl] at hloc ⊢
      simp [urlTruthy, hloc]
    rw [sendHandler, if_pos hp, if_pos hcond]
  · intro hacc hout
    have hcond := securityError_only_from_origin reg now msgLen req hout
    rw [hurl, isLocalWebpageUrl_eq_claimLocalOrigin] at hcond
    rw [hacc] at hcond
    simp at hcond

/-- Witness for C5's amended theorem: a public hostname is rejected with
SecurityError and an untouched registry; a `.local` hostname is accepted. -/
theorem webpageOrigin_check_witness :
    (SecurityValidator.isLocalWebpageUrl (.host "example.com")
      = claimLocalOrigin "example.com") ∧
    sendHandler [(1, { wsOpen := true, info := freshClientInfo 1 3 })] 5 10
        { url := .host "example.com", prompt := some "hello", targetClientId := .undef }
      = (.securityError, [(1, { wsOpen := true, info := freshClientInfo 1 3 })]) ∧
    (sendHandler [(2, { wsOpen := true, info := freshClientInfo 2 4 })] 6 11
        { url := .host "dev.LOCAL", prompt := some "hi", targetClientId := .undef }).1
      ≠ .securityError := by
  have h1 := webpageOrigin_check
    [(1, { wsOpen := true, info := freshClientInfo 1 3 })] 5 10
    { url := .host "example.com", prompt := some "hello", targetClientId := .undef }
    "example.com" rfl (by decide)
  have h2 := webpageOrigin_check
    [(2, { wsOpen := true, info := freshClientInfo 2 4 })] 6 11
    { url := .host "dev.LOCAL", prompt := some "hi", targetClientId := .undef }
    "dev.LOCAL" rfl (by decide)
  exact ⟨h1.1, h1.2.1 (by decide), h2.2.2 (by decide)⟩

/-- Helper: overwriting a key stores its value. -/
theorem getKey_setKey_self (k : String) (v : List Int) :
    ∀ m : ReqMap, (ReqMap.setKey m k v).getKey k = v := by
  intro m
  induction m with
  | nil =>
    show ReqMap.getKey [(k, v)] k = v
    unfold ReqMap.getKey
    rw [List.find?_cons_of_pos _ (by simp)]
  | cons e rest ih =>
    unfold ReqMap.setKey
    by_cases he : e.1 = k
    · rw [if_pos he]
      unfold ReqMap.getKey
      rw [List.find?_cons_of_pos _ (by simp)]
    · rw [if_neg he]
      unfold ReqMap.getKey at ih ⊢
      rw [List.find?_cons_of_neg _ (by simpa using he)]
      exact ih

/-- Helper: an absent key reads as the empty history. -/
theorem getKey_of_not_hasKey (m : ReqMap) (k : String)
    (h : m.hasKey k = false) : m.getKey k = [] := by
  unfold ReqMap.getKey
  have hnone : m.find? (fun e => decide (e.1 = k)) = none := by
    rw [List.find?_eq_none]
    intro x hx
    simp only [ReqMap.hasKey] at h
    exact List.any_eq_false.mp h x hx
  rw [hnone]

/-- Helper: an `isAllowed` check under the ceiling admits and appends the
instant to the recorded history, when every recorded instant is still inside
the window. -/
theorem isAllowed_admits (rl : RateLimiter) (identifier : String) (now : Int)
    (pre : List Int)
    (h1 : rl.maxRequests = 10) (h2 : rl.windowMs = 1000)
    (h3 : rl.requests.getKey identifier = pre)
    (hfil : ∀ t ∈ pre, now - 1000 < t)
    (hlen : pre.length < 10) :
    (rl.isAllowed identifier now).1 = true ∧
    (rl.isAllowed identifier now).2.maxRequests = 10 ∧
    (rl.isAllowed identifier now).2.windowMs = 1000 ∧
    (rl.isAllowed identifier now).2.requests.getKey identifier = pre ++ [now] := by
  simp only [RateLimiter.isAllowed]
  have hreq1 : (if rl.requests.hasKey identifier then rl.requests
      else rl.requests.setKey identifier []).getKey identifier = pre := by
    by_cases hk : rl.requests.hasKey identifier = true
    · rw [if_pos hk]
      exact h3
    · have hempty : pre = [] := by
        rw [← h3]
        exact getKey_of_not_hasKey _ _ (by simpa using hk)
      rw [if_neg hk, getKey_setKey_self, hempty]
  rw [hreq1, h2]
  have hfilter : pre.filter (fun t => decide (now - ((1000 : Nat) : Int) < t)) = pre := by
    rw [List.filter_eq_self]
    intro a ha
    simpa using hfil a ha
  rw [hfilter, h1]
  have hnotle : ¬ (10 ≤ pre.length) := by omega
  rw [if_neg hnotle]
  exact ⟨rfl, rfl, rfl, getKey_setKey_self _ _ _⟩

/-- Helper: an `isAllowed` check at the ceiling rejects without recording,
when every recorded instant is still inside the window. -/
theorem isAllowed_rejects (rl : RateLimiter) (identifier : String) (now : Int)
    (pre : List Int)
    (h1 : rl.maxRequests = 10) (h2 : rl.windowMs = 1000)
    (h3 : rl.requests.getKey identifier = pre)
    (hfil : ∀ t ∈ pre, now - 1000 < t)
    (hlen : 10 ≤ pre.length) :
    (rl.isAllowed identifier now).1 = false ∧
    (rl.isAllowed identifier now).2.requests.getKey identifier = pre := by
  simp only [RateLimiter.isAllowed]
  have hreq1 : (if rl.requests.hasKey identifier then rl.requests
      else rl.requests.setKey identifier []).getKey identifier = pre := by
    by_cases hk : rl.requests.hasKey identifier = true
    · rw [if_pos hk]
      exact h3
    · have hempty : pre = [] := by
        rw [← h3]
        exact getKey_of_not_hasKey _ _ (by simpa using hk)
      rw [if_neg hk, getKey_setKey_self, hempty]
  rw [hreq1, h2]
  have hfilter : pre.filter (fun t => decide (now - ((1000 : Nat) : Int) < t)) = pre := by
    rw [List.filter_eq_self]
    intro a ha
    simpa using hfil a ha
  rw [hfilter, h1, if_pos hlen]
  exact ⟨rfl, hreq1⟩

/-- Helper: a run of checks that all stay under the ceiling admits every one
and records them in order. -/
theorem runChecks_all_admitted (identifier : String) (lo hi : Int)
    (hspan : hi < lo + 1000) :
    ∀ (ts : List Int) (rl : RateLimiter) (pre : List Int),
      rl.maxRequests = 10 → rl.windowMs = 1000 →
      rl.requests.getKey identifier = pre →
      (∀ t ∈ pre, lo ≤ t ∧ t ≤ hi) → (∀ t ∈ ts, lo ≤ t ∧ t ≤ hi) →
      pre.length + ts.length ≤ 10 →
      (rl.runChecks identifier ts).1 = List.replicate ts.length true ∧
      (rl.runChecks identifier ts).2.maxRequests = 10 ∧
      (rl.runChecks identifier ts).2.windowMs = 1000 ∧
      (rl.runChecks identifier ts).2.requests.getKey identifier = pre ++ ts := by
  intro ts
  induction ts with
  | nil =>
    intro rl pre h1 h2 h3 hpre hts hlen
    exact ⟨rfl, h1, h2, by simpa using h3⟩
  | cons t rest ih =>
    intro rl pre h1 h2 h3 hpre hts hlen
    have htb := hts t (by simp)
    have hfil : ∀ x ∈ pre, t - 1000 < x := by
      intro x hx
      have := hpre x hx
      omega
    have hstep := isAllowed_admits rl identifier t pre h1 h2 h3 hfil (by simp at hlen; omega)
    have hpre2 : ∀ x ∈ pre ++ [t], lo ≤ x ∧ x ≤ hi := by
      intro x hx
      rcases List.mem_append.mp hx with hx1 | hx2
      · exact hpre x hx1
      · rcases List.mem_singleton.mp hx2 with rfl
        exact htb
    have hrest := ih (rl.isAllowed identifier t).2 (pre ++ [t])
      hstep.2.1 hstep.2.2.1 hstep.2.2.2
      hpre2 (fun x hx => hts x (by simp [hx]))
      (by simp at hlen ⊢; omega)
    refine ⟨?_, hrest.2.1, hrest.2.2.1, ?_⟩
    · show ((rl.isAllowed identifier t).1 ::
          ((rl.isAllowed identifier t).2.runChecks identifier rest).1)
        = List.replicate (rest.length + 1) true
      rw [hstep.1, hrest.1, List.replicate_succ]
    · show ((rl.isAllowed identifier t).2.runChecks identifier rest).2.requests.getKey identifier
        = pre ++ t :: rest
      rw [hrest.2.2.2]
      simp

/-- Helper: running checks over a concatenation runs the second batch from
the state the first leaves behind. -/
theorem runChecks_append (identifier : String) (xs ys : List Int) :
    ∀ rl : RateLimiter,
      rl.runChecks identifier (xs ++ ys)
        = ((rl.runChecks identifier xs).1 ++ ((rl.runChecks identifier xs).2.runChecks identifier ys).1,
           ((rl.runChecks identifier xs).2.runChecks identifier ys).2) := by
  induction xs with
  | nil => intro rl; rfl
  | cons x rest ih =>
    intro rl
    show ((rl.isAllowed identifier x).1 :: ((rl.isAllowed identifier x).2.runChecks identifier (rest ++ ys)).1,
        ((rl.isAllowed identifier x).2.runChecks identifier (rest ++ ys)).2) = _
    rw [ih (rl.isAllowed identifier x).2]
    rfl

/-- C6: for every caller identity with no recorded history, 11 submissions
within one second — 10 instants plus an 11th, all within a window-sized
span — are admitted for the first 10 and rejected on the 11th; the rejected
check records nothing (the stored history stays exactly the 10 admitted
instants, each having been pruned against the window and recorded only on
admission), and the middleware answers the 11th with the 429 rate-limit
body. -/
theorem rateLimiter_admits10_rejects11th (rl : RateLimiter) (identifier : String)
    (ts10 : List Int) (t11 lo hi : Int)
    (hmax : rl.maxRequests = 10) (hwin : rl.windowMs = 1000)
    (hfresh : rl.requests.getKey identifier = [])
    (hlen : ts10.length = 10)
    (hbound : ∀ t ∈ ts10 ++ [t11], lo ≤ t ∧ t ≤ hi)
    (hspan : hi < lo + 1000) :
    (rl.runChecks identifier (ts10 ++ [t11])).1 = List.replicate 10 true ++ [false] ∧
    (rl.runChecks identifier (ts10 ++ [t11])).2.requests.getKey identifier = ts10 ∧
    (rateLimitGate ((rl.runChecks identifier ts10).2) identifier t11).1
      = some (429, "RATE_LIMIT: Too many requests") := by
  have hb10 : ∀ t ∈ ts10, lo ≤ t ∧ t ≤ hi := fun t ht => hbound t (by simp [ht])
  have hb11 : lo ≤ t11 ∧ t11 ≤ hi := hbound t11 (by simp)
  have h10 := runChecks_all_admitted identifier lo hi hspan ts10 rl []
    hmax hwin hfresh (by simp) hb10 (by simp [hlen])
  have hfil : ∀ x ∈ ([] : List Int) ++ ts10, t11 - 1000 < x := by
    intro x hx
    have := hb10 x (by simpa using hx)
    omega
  have hrej := isAllowed_rejects (rl.runChecks identifier ts10).2 identifier t11 ts10
    h10.2.1 h10.2.2.1 (by simpa using h10.2.2.2) (by simpa using hfil)
    (by simp [hlen])
  have hv : ((rl.runChecks identifier ts10).2.runChecks identifier [t11]).1 = [false] := by
    rw [show ((rl.runChecks identifier ts10).2.runChecks identifier [t11]).1
        = [((rl.runChecks identifier ts10).2.isAllowed identifier t11).1] from rfl, hrej.1]
  refine ⟨?_, ?_, ?_⟩
  · rw [runChecks_append identifier ts10 [t11] rl, h10.1, hlen, hv]
  · rw [runChecks_append identifier ts10 [t11] rl]
    exact hrej.2
  · simp only [rateLimitGate]
    rw [hrej.1]
    simp

/-- Witness for C6: eleven immediate submissions from one address on the
server's fresh 10-per-second limiter. -/
theorem rateLimiter_admits10_rejects11th_witness :
    ((⟨10, 1000, []⟩ : RateLimiter).runChecks "127.0.0.1"
        ([0, 0, 0, 0, 0, 0, 0, 0, 0, 0] ++ [0])).1
      = List.replicate 10 true ++ [false] ∧
    ((⟨10, 1000, []⟩ : RateLimiter).runChecks "127.0.0.1"
        ([0, 0, 0, 0, 0, 0, 0, 0, 0, 0] ++ [0])).2.requests.getKey "127.0.0.1"
      = [0, 0, 0, 0, 0, 0, 0, 0, 0, 0] ∧
    (rateLimitGate (((⟨10, 1000, []⟩ : RateLimiter).runChecks "127.0.0.1"
        [0, 0, 0, 0, 0, 0, 0, 0, 0, 0]).2) "127.0.0.1" 0).1
      = some (429, "RATE_LIMIT: Too many requests") :=
  rateLimiter_admits10_rejects11th ⟨10, 1000, []⟩ "127.0.0.1"
    [0, 0, 0, 0, 0, 0, 0, 0, 0, 0] 0 0 0
    rfl rfl rfl rfl (by decide) (by decide)

/-- Helper: a run of acceptor events issues exactly the counter values at
the loopback connection attempts, and advances the counter once per
connection attempt of either kind. -/
theorem runConn_ids (evs : List ConnEvent) :
    ∀ s : ServerState,
      (runConn s evs).2 = idsOfFlags s.counter (connFlags evs) ∧
      (runConn s evs).1.counter = s.counter + (connFlags evs).length := by
  induction evs with
  | nil =>
    intro s
    exact ⟨rfl, by simp [runConn, connFlags, idsOfFlags]⟩
  | cons ev rest ih =>
    intro s
    cases ev with
    | connect b now =>
      cases b
      · have h := ih { s with counter := s.counter + 1 }
        refine ⟨?_, ?_⟩
        · show (runConn { s with counter := s.counter + 1 } rest).2
            = idsOfFlags s.counter (false :: connFlags rest)
          rw [h.1]
          rfl
        · show (runConn { s with counter := s.counter + 1 } rest).1.counter
            = s.counter + (false :: connFlags rest).length
          rw [h.2]
          simp
          omega
      · have h := ih (stepConn s (ConnEvent.connect true now)).1
        refine ⟨?_, ?_⟩
        · show s.counter :: (runConn (stepConn s (ConnEvent.connect true now)).1 rest).2
            = idsOfFlags s.counter (true :: connFlags rest)
          rw [h.1]
          rfl
        · show (runConn (stepConn s (ConnEvent.connect true now)).1 rest).1.counter
            = s.counter + (true :: connFlags rest).length
          rw [h.2]
          show s.counter + 1 + (connFlags rest).length = _
          simp [List.length_cons]
          omega
    | disconnect id =>
      have h := ih { s with reg := s.reg.filter (fun e => e.1 ≠ id) }
      exact ⟨h.1, h.2⟩

/-- Helper: the ids handed out from counter `k` are strictly increasing and
all at least `k`. -/
theorem idsOfFlags_strictMono (bs : List Bool) :
    ∀ k, List.Pairwise (· < ·) (idsOfFlags k bs) ∧ ∀ i ∈ idsOfFlags k bs, k ≤ i := by
  induction bs with
  | nil =>
    intro k
    simp [idsOfFlags]
  | cons b rest ih =>
    intro k
    cases b
    · have h := ih (k + 1)
      refine ⟨h.1, fun i hi => ?_⟩
      have := h.2 i hi
      omega
    · have h := ih (k + 1)
      refine ⟨List.Pairwise.cons (fun i hi => ?_) h.1, fun i hi => ?_⟩
      · have := h.2 i hi
        omega
      · rcases List.mem_cons.mp hi with rfl | hi2
        · exact le_refl _
        · have := h.2 i hi2
          omega

/-- C4 (counterexample): a refused (non-loopback) connection attempt also
consumes an id — after one refused and one accepted attempt the single
registered client holds id 2, so the 1st successfully registered client does
not receive id 1 as the claim states. -/
theorem c4_counter_counterexample :
    (runConn initServerState [.connect false 0, .connect true 0]).2 = [2] ∧
    (runConn initServerState [.connect false 0, .connect true 0]).2 ≠ [1] := by
  constructor
  · rfl
  · decide

/-- C4 (amended): over the registry's entire lifetime the issued client ids
are strictly increasing — hence unique, and an id is never reused after its
client disconnects; the id counter starts at 1 and is incremented on every
connection attempt, refused ones included, so the k-th connection attempt is
offered id k and a successfully registered client's id can exceed its
registration rank when earlier attempts were refused. -/
theorem clientIds_strictly_increasing (evs : List ConnEvent) :
    (runConn initServerState evs).2 = idsOfFlags 1 (connFlags evs) ∧
    List.Pairwise (· < ·) ((runConn initServerState evs).2) ∧
    ((runConn initServerState evs).2).Nodup ∧
    (runConn initServerState evs).1.counter = 1 + (connFlags evs).length := by
  have h := runConn_ids evs initServerState
  have hm := idsOfFlags_strictMono (connFlags evs) 1
  refine ⟨h.1, ?_, ?_, h.2⟩
  · rw [h.1]
    exact hm.1
  · rw [h.1]
    exact List.Pairwise.imp (fun hlt => Nat.ne_of_lt hlt) hm.1

/-- Helper: folding the selection step from an already-selected candidate
yields a maximal entry; strictness of the replacement test keeps the earliest
(hence, under sorted ids, lowest-id) entry among ties. -/
theorem mra_fold (l : Registry) :
    ∀ b : Nat × Client,
      (∀ f ∈ l, b.1 < f.1) →
      List.Pairwise (fun a c : Nat × Client => a.1 < c.1) l →
      ∃ c : Nat × Client,
        l.foldl (fun acc e =>
            if acc.2 < e.2.info.lastActive then (some e, e.2.info.lastActive) else acc)
          (some b, b.2.info.lastActive)
          = (some c, c.2.info.lastActive) ∧
        (c = b ∨ c ∈ l) ∧
        b.2.info.lastActive ≤ c.2.info.lastActive ∧
        (∀ f ∈ l, f.2.info.lastActive ≤ c.2.info.lastActive) ∧
        (b.2.info.lastActive = c.2.info.lastActive → c = b) ∧
        (∀ f ∈ l, f.2.info.lastActive = c.2.info.lastActive → c.1 ≤ f.1) := by
  induction l with
  | nil =>
    intro b _ _
    exact ⟨b, rfl, Or.inl rfl, le_refl _, by simp, fun _ => rfl, by simp⟩
  | cons e rest ih =>
    intro b hb hsort
    obtain ⟨hhead, htail⟩ := List.pairwise_cons.mp hsort
    by_cases hlt : b.2.info.lastActive < e.2.info.lastActive
    · obtain ⟨c, hc, hmem, hle, hmax, htie, hids⟩ := ih e hhead htail
      refine ⟨c, ?_, ?_, ?_, ?_, ?_, ?_⟩
      · rw [List.foldl_cons,
          if_pos (show ((some b, b.2.info.lastActive) : Option (Nat × Client) × Nat).2
            < e.2.info.lastActive from hlt)]
        exact hc
      · rcases hmem with rfl | hm
        · exact Or.inr (List.mem_cons_self _ _)
        · exact Or.inr (List.mem_cons_of_mem _ hm)
      · exact le_trans (le_of_lt hlt) hle
      · intro f hf
        rcases List.mem_cons.mp hf with rfl | hf2
        · exact hle
        · exact hmax f hf2
      · intro heq
        omega
      · intro f hf heq
        rcases List.mem_cons.mp hf with rfl | hf2
        · rw [htie heq]
        · exact hids f hf2 heq
    · obtain ⟨c, hc, hmem, hle, hmax, htie, hids⟩ :=
        ih b (fun f hf => hb f (List.mem_cons_of_mem _ hf)) htail
      refine ⟨c, ?_, ?_, hle, ?_, htie, ?_⟩
      · rw [List.foldl_cons,
          if_neg (show ¬ ((some b, b.2.info.lastActive) : Option (Nat × Client) × Nat).2
            < e.2.info.lastActive from hlt)]
        exact hc
      · rcases hmem with rfl | hm
        · exact Or.inl rfl
        · exact Or.inr (List.mem_cons_of_mem _ hm)
      · intro f hf
        rcases List.mem_cons.mp hf with rfl | hf2
        · omega
        · exact hmax f hf2
      · intro f hf heq
        rcases List.mem_cons.mp hf with rfl | hf2
        · have hbla : b.2.info.lastActive = c.2.info.lastActive := by omega
          have hbe := hb f (List.mem_cons_self _ _)
          rw [htie hbla]
          omega
        · exact hids f hf2 heq

/-- C3: on a non-empty registry of open connections with sorted ids and
positive activity stamps, an untargeted valid submission dispatches to
exactly one client: the one whose `lastActive` is maximal, with ties broken
in favour of the lowest id (earliest registration); in particular a client
whose `lastActive` strictly exceeds every other's — e.g. right after its
heartbeat — is the one routed to. -/
theorem autoRoute_to_mostRecentlyActive (reg : Registry) (now msgLen : Nat)
    (req : SendRequest)
    (hsort : List.Pairwise (fun a c : Nat × Client => a.1 < c.1) reg)
    (hpos : ∀ e ∈ reg, 0 < e.2.info.lastActive)
    (hopen : ∀ e ∈ reg, e.2.wsOpen = true)
    (hne : reg ≠ [])
    (hp : SecurityValidator.validatePrompt req.prompt = true)
    (hu : SecurityValidator.isLocalWebpageUrl req.url = true)
    (ht : req.targetClientId.truthy = false) :
    ∃ c : Nat × Client,
      mostRecentlyActive reg = some c ∧
      c ∈ reg ∧
      (sendHandler reg now msgLen req).1 = .sent 1 (some (c.1 : Int)) ∧
      (∀ f ∈ reg, f.2.info.lastActive ≤ c.2.info.lastActive) ∧
      (∀ f ∈ reg, f.2.info.lastActive = c.2.info.lastActive → c.1 ≤ f.1) ∧
      (∀ b ∈ reg, (∀ f ∈ reg, f ≠ b → f.2.info.lastActive < b.2.info.lastActive) → c = b) := by
  match reg, hsort, hpos, hopen, hne with
  | hd :: l, hsort, hpos, hopen, _ =>
    obtain ⟨hhead, htail⟩ := List.pairwise_cons.mp hsort
    have hhd_pos : 0 < hd.2.info.lastActive := hpos hd (by simp)
    obtain ⟨c, hc, hmem, hle, hmax, htie, hids⟩ := mra_fold l hd hhead htail
    have hmra : mostRecentlyActive (hd :: l) = some c := by
      unfold mostRecentlyActive
      rw [List.foldl_cons,
        if_pos (show (((none : Option (Nat × Client)), 0) : Option (Nat × Client) × Nat).2
          < hd.2.info.lastActive from hhd_pos),
        hc]
    have hcmem : c ∈ hd :: l := by
      rcases hmem with rfl | hm
      · exact List.mem_cons_self _ _
      · exact List.mem_cons_of_mem _ hm
    have hcopen : c.2.wsOpen = true := hopen c hcmem
    have hmaxall : ∀ f ∈ hd :: l, f.2.info.lastActive ≤ c.2.info.lastActive := by
      intro f hf
      rcases List.mem_cons.mp hf with rfl | hf2
      · exact hle
      · exact hmax f hf2
    refine ⟨c, hmra, hcmem, ?_, hmaxall, ?_, ?_⟩
    · have hlen : ¬ (hd :: l).length = 0 := by simp
      rw [sendHandler]
      simp only [hp, if_true, hu, Bool.not_true, Bool.and_false, Bool.false_eq_true, if_false,
        ht, hlen, Bool.false_and, hmra, hcopen]
    · intro f hf heq
      rcases List.mem_cons.mp hf with rfl | hf2
      · rw [htie heq]
      · exact hids f hf2 heq
    · intro b hbmem hdom
      by_cases hcb : c = b
      · exact hcb
      · have h1 := hdom c hcmem hcb
        have h2 := hmaxall b hbmem
        omega

/-- Witness for C3: with client 1 last active at 5 and client 2 last active
at 9 — as after client 2's heartbeat — the untargeted submission routes to
client 2. -/
theorem autoRoute_to_mostRecentlyActive_witness :
    ∃ c : Nat × Client,
      mostRecentlyActive
          ([(1, { wsOpen := true, info := freshClientInfo 1 5 }),
            (2, { wsOpen := true, info := freshClientInfo 2 9 })] : Registry) = some c ∧
      c ∈ ([(1, { wsOpen := true, info := freshClientInfo 1 5 }),
            (2, { wsOpen := true, info := freshClientInfo 2 9 })] : Registry) ∧
      (sendHandler
          [(1, { wsOpen := true, info := freshClientInfo 1 5 }),
           (2, { wsOpen := true, info := freshClientInfo 2 9 })] 11 10
          { url := .absent, prompt := some "hello", targetClientId := .undef }).1
        = .sent 1 (some (c.1 : Int)) ∧
      (∀ f ∈ ([(1, { wsOpen := true, info := freshClientInfo 1 5 }),
               (2, { wsOpen := true, info := freshClientInfo 2 9 })] : Registry),
        f.2.info.lastActive ≤ c.2.info.lastActive) ∧
      (∀ f ∈ ([(1, { wsOpen := true, info := freshClientInfo 1 5 }),
               (2, { wsOpen := true, info := freshClientInfo 2 9 })] : Registry),
        f.2.info.lastActive = c.2.info.lastActive → c.1 ≤ f.1) ∧
      (∀ b ∈ ([(1, { wsOpen := true, info := freshClientInfo 1 5 }),
               (2, { wsOpen := true, info := freshClientInfo 2 9 })] : Registry),
        (∀ f ∈ ([(1, { wsOpen := true, info := freshClientInfo 1 5 }),
                 (2, { wsOpen := true, info := freshClientInfo 2 9 })] : Registry),
          f ≠ b → f.2.info.lastActive < b.2.info.lastActive) → c = b) :=
  autoRoute_to_mostRecentlyActive
    [(1, { wsOpen := true, info := freshClientInfo 1 5 }),
     (2, { wsOpen := true, info := freshClientInfo 2 9 })] 11 10
    { url := .absent, prompt := some "hello", targetClientId := .undef }
    (by decide) (by decide) (by decide) (by decide) (by decide) (by decide) (by decide)

end AiBridge
